import Mathlib

/-!
Shallow embedding of the Veritas backend (`src/main.py`): the media-item data
model, the two authentication helpers, and the CRUD endpoint handlers
(upload, list, update, delete), together with proofs of the specification
claims about them.

Conventions: the database table `media_items` is a `Store` (a list of rows
plus the `SERIAL` counter and the insertion clock); the `uploads/` directory
is a `BlobStore` (association list from filename to byte content); the
random `uuid.uuid4()` value and the outcome of the disk write are explicit
parameters, so every operation is a pure function of its inputs.
-/

namespace Veritas

/-- A row of the `media_items` table (`id SERIAL, title, category, file_path,
uploaded_at TIMESTAMP DEFAULT CURRENT_TIMESTAMP`). -/
structure MediaItem where
  id : Nat
  title : String
  category : String
  file_path : String
  uploaded_at : Nat
deriving DecidableEq, Repr

/-- The relational store: the rows, the next value of the `SERIAL` id
sequence, and the clock used for the `uploaded_at` default. -/
structure Store where
  rows : List MediaItem
  nextId : Nat
  now : Nat
deriving DecidableEq, Repr

/-- The `uploads/` directory: filenames with their byte content. -/
structure BlobStore where
  files : List (String × List Nat)
deriving DecidableEq, Repr

/-- Decoded identity claim set returned by the external token verifier
(`auth.verify_id_token`); the delete handler reads `user_data.get('email')`. -/
structure Claims where
  email : Option String
deriving DecidableEq, Repr

/-- An `HTTPException(status_code=..., detail=...)`. -/
structure HTTPError where
  status : Nat
  detail : String
deriving DecidableEq, Repr

instance {ε α : Type} [DecidableEq ε] [DecidableEq α] : DecidableEq (Except ε α)
  | .ok a, .ok b =>
    if h : a = b then .isTrue (by rw [h]) else .isFalse (by simp [h])
  | .ok _, .error _ => .isFalse (by simp)
  | .error _, .ok _ => .isFalse (by simp)
  | .error a, .error b =>
    if h : a = b then .isTrue (by rw [h]) else .isFalse (by simp [h])

/-- Boolean check that an `Except` is a success. -/
def isOkE {ε α : Type} : Except ε α → Bool
  | .ok _ => true
  | .error _ => false

/-! ### `os.path.splitext` (posixpath semantics) -/

/-- Index of the last occurrence of `c` in `l`, or `-1` when absent
(mirrors Python `str.rfind`). -/
def lastIdx (c : Char) (l : List Char) : Int :=
  (List.range l.length).foldl
    (fun acc i => if l.getD i ' ' = c then (i : Int) else acc) (-1)

/-- Python `posixpath.splitext` on a character list: split at the last dot,
provided it lies after the last `/` and some non-dot character of the base
name precedes it (so dotfiles such as `.cshrc` have no extension). -/
def splitextL (p : List Char) : List Char × List Char :=
  if lastIdx '.' p > lastIdx '/' p ∧
      (List.range p.length).any
        (fun i => decide (lastIdx '/' p < (i : Int)) && decide ((i : Int) < lastIdx '.' p)
          && (p.getD i ' ' != '.')) then
    (p.take (lastIdx '.' p).toNat, p.drop (lastIdx '.' p).toNat)
  else
    (p, [])

/-- `os.path.splitext` on strings: returns `(root, ext)`. -/
def splitext (p : String) : String × String :=
  (⟨(splitextL p.data).1⟩, ⟨(splitextL p.data).2⟩)

/-- The generated on-disk filename `f"{uuid.uuid4()}{ext}"`: the random
identifier followed by the extension of the original filename. -/
def unique_filename (rid fname : String) : String :=
  rid ++ (splitext fname).2

/-! ### Auth helpers -/

/-- Python `s.startswith(pre)`. -/
def pyStartsWith (s pre : String) : Bool :=
  pre.data.isPrefixOf s.data

/-- Worker for `pySplit`: scan `l`, splitting at each leftmost occurrence of
the non-empty separator `sep`; `acc` holds the current chunk reversed. The
fuel only bounds the recursion depth: every step consumes at least one
character of `l`, so `l.length` fuel always reaches the `[]` case first and
the fuel-exhaustion branch is never taken. -/
def splitOnFuel (sep : List Char) : Nat → List Char → List Char → List (List Char)
  | _, [], acc => [acc.reverse]
  | 0, l, acc => [acc.reverse ++ l]
  | fuel + 1, d :: rest, acc =>
    if sep.isPrefixOf (d :: rest) then
      acc.reverse :: splitOnFuel sep fuel (List.drop (sep.length - 1) rest) []
    else
      splitOnFuel sep fuel rest (d :: acc)

/-- Python `s.split(sep)` for a non-empty separator. -/
def pySplit (sep s : String) : List String :=
  match sep.data with
  | [] => [s]
  | _ :: _ => (splitOnFuel sep.data s.data.length s.data []).map (fun l => ⟨l⟩)

/-- The token the handler extracts: `authorization.split("Bearer ")[1]`. -/
def extractBearerToken (a : String) : String :=
  (pySplit "Bearer " a).getD 1 ""

/-- `verify_firebase_token`: reject a missing header or one that does not
start with `"Bearer "`; otherwise extract the token and delegate to the
external verifier, turning any verification failure into a 401. -/
def verify_firebase_token (verifier : String → Option Claims)
    (authorization : Option String) : Except HTTPError Claims :=
  match authorization with
  | none => .error ⟨401, "Missing or invalid token"⟩
  | some a =>
    if a == "" || !(pyStartsWith a "Bearer ") then
      .error ⟨401, "Missing or invalid token"⟩
    else
      match verifier (extractBearerToken a) with
      | some c => .ok c
      | none => .error ⟨401, "Unauthorized: Invalid Firebase Token"⟩

/-- Envelope used by the mobile endpoints: `{success, message, data}`
(also the JSON payload placed in the API-key 401 detail). -/
structure MobileEnvelope where
  success : Bool
  message : String
  data : Option MediaItem
deriving DecidableEq, Repr

/-- The 401 detail body of `verify_api_key`. -/
def apiKeyErrEnvelope : MobileEnvelope :=
  ⟨false, "Api key is wrong or not found", none⟩

/-- `VALID_API_KEYS = [os.getenv("MOBILE_API_KEY", "veritas-mobile-key-2025")]`:
the allow-list as a function of the optional environment variable. -/
def VALID_API_KEYS (env : Option String) : List String :=
  [env.getD "veritas-mobile-key-2025"]

/-- `verify_api_key`: reject a missing header (`if not x_api_key`, so an
empty value is also rejected) or a value outside the allow-list; otherwise
return the key. -/
def verify_api_key (keys : List String) (x_api_key : Option String) :
    Except MobileEnvelope String :=
  match x_api_key with
  | none => .error apiKeyErrEnvelope
  | some k =>
    if k == "" then .error apiKeyErrEnvelope
    else if keys.contains k then .ok k
    else .error apiKeyErrEnvelope

/-! ### Upload (create) -/

/-- Outcome of the synchronous byte copy `shutil.copyfileobj(file.file, buffer)`:
either the full content reaches disk, or the copy raises after writing a
proper prefix of the bytes. -/
inductive WriteOutcome where
  | ok
  | crash (written : List Nat)
deriving DecidableEq, Repr

/-- `INSERT INTO media_items (title, category, file_path) VALUES ... RETURNING *`:
the store assigns `id` from the sequence and `uploaded_at` from the clock. -/
def insertRow (st : Store) (title category file_path : String) : Store × MediaItem :=
  let row : MediaItem :=
    { id := st.nextId, title := title, category := category,
      file_path := file_path, uploaded_at := st.now }
  ({ rows := st.rows ++ [row], nextId := st.nextId + 1, now := st.now }, row)

/-- Result of the shared upload logic: the final store and blob states plus
the inserted row or the error message of the failed write. -/
structure UploadResult where
  st : Store
  blob : BlobStore
  response : Except String MediaItem
deriving DecidableEq, Repr

/-- The body shared verbatim by `upload_content` and `mobile_upload_content`:
derive the extension, generate the unique filename, write the bytes to the
blob store, and only after a completed write insert the row. On a failed
write the partially written bytes stay on disk and no insert is attempted. -/
def uploadCore (st : Store) (blob : BlobStore) (title category fname : String)
    (content : List Nat) (rid : String) (w : WriteOutcome) : UploadResult :=
  let uf := unique_filename rid fname
  match w with
  | .crash written =>
    { st := st, blob := ⟨(uf, written) :: blob.files⟩, response := .error "write failed" }
  | .ok =>
    let blob2 : BlobStore := ⟨(uf, content) :: blob.files⟩
    let (st2, row) := insertRow st title category uf
    { st := st2, blob := blob2, response := .ok row }

/-- Success envelope of `POST /admin/upload`. -/
structure AdminEnvelope where
  status : String
  item : MediaItem
deriving DecidableEq, Repr

/-- `POST /admin/upload`: Firebase auth, then the shared upload body; an
auth failure short-circuits with 401 and a failed write propagates as an
uncaught exception, i.e. a 500. -/
def upload_content (verifier : String → Option Claims) (authorization : Option String)
    (st : Store) (blob : BlobStore) (title category fname : String)
    (content : List Nat) (rid : String) (w : WriteOutcome) :
    Store × BlobStore × Except HTTPError AdminEnvelope :=
  match verify_firebase_token verifier authorization with
  | .error e => (st, blob, .error e)
  | .ok _ =>
    let r := uploadCore st blob title category fname content rid w
    match r.response with
    | .ok row => (r.st, r.blob, .ok ⟨"success", row⟩)
    | .error msg => (r.st, r.blob, .error ⟨500, msg⟩)

/-- Full HTTP outcome of `POST /mobile/upload`: final states, status code
and envelope (the 401 detail of `verify_api_key` is itself an envelope). -/
structure MobileUploadOutcome where
  st : Store
  blob : BlobStore
  status : Nat
  body : MobileEnvelope
deriving DecidableEq, Repr

/-- `POST /mobile/upload`: API-key auth as a dependency (its 401 is raised
before the handler body runs), then the shared upload body inside a
`try/except` that turns any handler failure into HTTP 200 with
`success:false`. -/
def mobile_upload_content (keys : List String) (x_api_key : Option String)
    (st : Store) (blob : BlobStore) (title category fname : String)
    (content : List Nat) (rid : String) (w : WriteOutcome) : MobileUploadOutcome :=
  match verify_api_key keys x_api_key with
  | .error env => { st := st, blob := blob, status := 401, body := env }
  | .ok _ =>
    let r := uploadCore st blob title category fname content rid w
    match r.response with
    | .ok row =>
      { st := r.st, blob := r.blob, status := 200,
        body := ⟨true, "Upload successful", some row⟩ }
    | .error msg =>
      { st := r.st, blob := r.blob, status := 200,
        body := ⟨false, "Upload failed: " ++ msg, none⟩ }

/-! ### List (read with search) -/

/-- Postgres `lower()` on one character (C locale / ASCII as the tests and
data use): map `A`–`Z` to `a`–`z`, leave everything else alone. -/
def lowerChar (c : Char) : Char :=
  if 65 ≤ c.toNat ∧ c.toNat ≤ 90 then Char.ofNat (c.toNat + 32) else c

/-- Lower-case a character list. -/
def lowerL (l : List Char) : List Char :=
  l.map lowerChar

/-- Scan every suffix of the subject and test it with `f` (used for the `%`
wildcard, which may absorb any number of leading characters). -/
def likeTail (f : List Char → Bool) : List Char → Bool
  | [] => f []
  | c :: t => f (c :: t) || likeTail f t

/-- Postgres `LIKE` pattern matching on (already lower-cased) character
lists: `%` matches any sequence, `_` any single character, backslash
escapes the next pattern character, anything else matches itself. -/
def likeMatch : List Char → List Char → Bool
  | [], s => s.isEmpty
  | p :: ps, s =>
    if p = '%' then
      likeTail (likeMatch ps) s
    else if p = '_' then
      (match s with
       | [] => false
       | _ :: t => likeMatch ps t)
    else if p = '\\' then
      (match ps with
       | [] => false
       | e :: ps2 =>
         match s with
         | [] => false
         | d :: t => (d == e) && likeMatch ps2 t)
    else
      (match s with
       | [] => false
       | d :: t => (d == p) && likeMatch ps t)

/-- Postgres `ILIKE`: case-insensitive `LIKE`, i.e. `LIKE` after lowering
both the pattern and the subject. -/
def ilike (pat s : String) : Bool :=
  likeMatch (lowerL pat.data) (lowerL s.data)

/-- The row predicate of the dynamically built `SELECT`: an exact-match
clause on `category` when the parameter is truthy and not the sentinel
`ALL`, and a `title ILIKE '%q%'` clause when `q` is truthy. -/
def rowMatches (q category : Option String) (r : MediaItem) : Bool :=
  (match category with
   | some c => if c != "" && c != "ALL" then r.category == c else true
   | none => true)
  &&
  (match q with
   | some s => if s != "" then ilike ("%" ++ s ++ "%") r.title else true
   | none => true)

/-- Response row of `GET /content`: `file_path` replaced by the full URL. -/
structure ListItem where
  id : Nat
  title : String
  category : String
  url : String
  uploaded_at : Nat
deriving DecidableEq, Repr

/-- Projection of a row to the list response shape, prefixing the configured
base URL (`http://{SERVER_IP}:8000/files/`). -/
def projectItem (baseUrl : String) (r : MediaItem) : ListItem :=
  { id := r.id, title := r.title, category := r.category,
    url := baseUrl ++ r.file_path, uploaded_at := r.uploaded_at }

/-- `GET /content`: filter the rows by the dynamically built predicate and
project each matching row. -/
def list_content (rows : List MediaItem) (q category : Option String)
    (baseUrl : String) : List ListItem :=
  (rows.filter (rowMatches q category)).map (projectItem baseUrl)

/-! ### Update -/

/-- One `SET` clause of the dynamically built `UPDATE`. -/
inductive Assignment where
  | setTitle (v : String)
  | setCategory (v : String)
deriving DecidableEq, Repr

/-- Apply the collected `SET` clauses to a row. -/
def applyAssignments (l : List Assignment) (r : MediaItem) : MediaItem :=
  l.foldl
    (fun r a =>
      match a with
      | .setTitle v => { r with title := v }
      | .setCategory v => { r with category := v })
    r

/-- Python truthiness of an optional string parameter: `None` and `""` are
falsy. -/
def truthy (o : Option String) : Bool :=
  match o with
  | none => false
  | some s => s != ""

/-- Response envelope of `PATCH /content/{item_id}`. -/
structure UpdateEnvelope where
  status : String
  item : MediaItem
deriving DecidableEq, Repr

/-- `PATCH /content/{item_id}`: 404 when the id is absent; otherwise collect
a `SET` clause per truthy parameter; with no clause return the existing row
under status `no changes`, else apply the update and return the updated row
under status `updated`. -/
def update_content (st : Store) (item_id : Nat)
    (title category : Option String) : Store × Except HTTPError UpdateEnvelope :=
  match st.rows.find? (fun r => r.id == item_id) with
  | none => (st, .error ⟨404, "Item not found"⟩)
  | some existing =>
    let updates : List Assignment :=
      (if truthy title then [Assignment.setTitle (title.getD "")] else []) ++
      (if truthy category then [Assignment.setCategory (category.getD "")] else [])
    if updates.isEmpty then
      (st, .ok ⟨"no changes", existing⟩)
    else
      let newRows := st.rows.map
        (fun r => if r.id == item_id then applyAssignments updates r else r)
      ({ rows := newRows, nextId := st.nextId, now := st.now },
       .ok ⟨"updated", applyAssignments updates existing⟩)

/-! ### Delete -/

/-- Response envelope of `DELETE /content/{item_id}`. -/
structure DeleteEnvelope where
  message : String
  admin : Option String
deriving DecidableEq, Repr

/-- `DELETE /content/{item_id}`: 404 when the id is absent; otherwise remove
the backing file only if it exists (absence tolerated), delete the row, and
confirm with the deleted title and the identity's email. -/
def delete_item (st : Store) (blob : BlobStore) (item_id : Nat)
    (user_data : Claims) : Store × BlobStore × Except HTTPError DeleteEnvelope :=
  match st.rows.find? (fun r => r.id == item_id) with
  | none => (st, blob, .error ⟨404, "Item not found"⟩)
  | some item =>
    let blob2 : BlobStore :=
      if blob.files.any (fun f => f.1 == item.file_path) then
        ⟨blob.files.filter (fun f => f.1 != item.file_path)⟩
      else blob
    let rows2 := st.rows.filter (fun r => r.id != item_id)
    ({ rows := rows2, nextId := st.nextId, now := st.now }, blob2,
     .ok ⟨"Deleted " ++ item.title, user_data.email⟩)

/-! ### Spec-side definitions

These follow the wording of the specification ("case-insensitive substring
match on title", "exact-match predicate on category"), to be compared with
the implementation's `ILIKE`-based predicate. -/

/-- Whether `s` begins with `p` (plain character-list comparison). -/
def startsL : List Char → List Char → Bool
  | [], _ => true
  | _ :: _, [] => false
  | p :: ps, c :: s => (c == p) && startsL ps s

/-- Whether `q` occurs as a contiguous run inside `s`. -/
def subL (q : List Char) : List Char → Bool
  | [] => q.isEmpty
  | c :: t => startsL q (c :: t) || subL q t

/-- Spec wording: `title` contains the query as a case-insensitive
substring. -/
def containsCI (q title : String) : Bool :=
  subL (lowerL q.data) (lowerL title.data)

/-- Spec wording of the list predicate: case-insensitive substring match of
the query against `title`, AND an exact `category` match when a
non-sentinel category is supplied. -/
def specMatch (q : String) (category : Option String) (r : MediaItem) : Bool :=
  containsCI q r.title &&
  (match category with
   | some c => if c != "" && c != "ALL" then r.category == c else true
   | none => true)

/-! ## Theorems -/

/-- C4: for every store state and every query string `q`, list called with
`category="ALL"` returns exactly the same sequence of items as list called
with no category parameter: the sentinel adds no predicate. -/
theorem list_all_sentinel_eq_no_category (rows : List MediaItem)
    (q : Option String) (baseUrl : String) :
    list_content rows q (some "ALL") baseUrl = list_content rows q none baseUrl := by
  unfold list_content
  congr 1

/-- C10: list called with an empty-string parameter behaves exactly like
list with that parameter absent, on the query side and on the category
side: the empty string, like the sentinel, adds no predicate. -/
theorem list_empty_param_eq_absent (rows : List MediaItem) (baseUrl : String) :
    (∀ category : Option String,
       list_content rows (some "") category baseUrl
         = list_content rows none category baseUrl)
  ∧ (∀ q : Option String,
       list_content rows q (some "") baseUrl = list_content rows q none baseUrl) := by
  constructor
  · intro category
    unfold list_content
    congr 1
  · intro q
    unfold list_content
    congr 1

/-- C6: token verification fails iff the Authorization header is absent,
does not start with the `Bearer ` prefix (which covers the empty header,
rejected by truthiness), or the token the handler extracts fails external
verification, whatever the underlying cause; on success the decoded claim
set produced by the external verifier is returned as is; and every failure
carries HTTP status 401. -/
theorem token_auth_semantics (v : String → Option Claims) (auth : Option String) :
    (isOkE (verify_firebase_token v auth) = false ↔
       auth = none ∨ ∃ a, auth = some a ∧
         (pyStartsWith a "Bearer " = false ∨ v (extractBearerToken a) = none))
  ∧ (∀ a c, auth = some a → pyStartsWith a "Bearer " = true →
       v (extractBearerToken a) = some c → verify_firebase_token v auth = .ok c)
  ∧ (∀ c, verify_firebase_token v auth = .ok c →
       ∃ a, auth = some a ∧ v (extractBearerToken a) = some c)
  ∧ (∀ e, verify_firebase_token v auth = .error e → e.status = 401) := by
  cases auth with
  | none =>
    refine ⟨by simp [verify_firebase_token, isOkE], ?_, ?_, ?_⟩
    · intro a c h
      exact absurd h (by simp)
    · intro c h
      exact absurd h (by simp [verify_firebase_token])
    · intro e h
      simp only [verify_firebase_token] at h
      cases h
      rfl
  | some a =>
    by_cases hs : pyStartsWith a "Bearer " = true
    · have ha : (a == "") = false := by
        cases h : a == "" with
        | false => rfl
        | true =>
          exfalso
          have : a = "" := by simpa using h
          subst this
          exact absurd hs (by decide)
      cases hv : v (extractBearerToken a) with
      | some c =>
        have hr : verify_firebase_token v (some a) = .ok c := by
          simp [verify_firebase_token, ha, hs, hv]
        refine ⟨?_, ?_, ?_, ?_⟩
        · simp [hr, isOkE, hs, hv]
        · intro a' c' he _ hv'
          cases he
          rw [hv] at hv'
          cases hv'
          exact hr
        · intro c' h
          rw [hr] at h
          cases h
          exact ⟨a, rfl, hv⟩
        · intro e h
          rw [hr] at h
          cases h
      | none =>
        have hr : verify_firebase_token v (some a) =
            .error ⟨401, "Unauthorized: Invalid Firebase Token"⟩ := by
          simp [verify_firebase_token, ha, hs, hv]
        refine ⟨?_, ?_, ?_, ?_⟩
        · simp [hr, isOkE, hv]
        · intro a' c' he _ hv'
          cases he
          rw [hv] at hv'
          cases hv'
        · intro c h
          rw [hr] at h
          cases h
        · intro e h
          rw [hr] at h
          cases h
          rfl
    · have hs' : pyStartsWith a "Bearer " = false := by
        cases h : pyStartsWith a "Bearer " with
        | false => rfl
        | true => exact absurd h hs
      have hr : verify_firebase_token v (some a) =
          .error ⟨401, "Missing or invalid token"⟩ := by
        simp [verify_firebase_token, hs']
      refine ⟨?_, ?_, ?_, ?_⟩
      · simp [hr, isOkE, hs']
      · intro a' c' he hst _
        cases he
        exact absurd hst hs
      · intro c h
        rw [hr] at h
        cases h
      · intro e h
        rw [hr] at h
        cases h
        rfl

/-- Witness for C6: a concrete verifier accepting the token `tok` and the
header `Bearer tok` yield the decoded claim set. -/
theorem token_auth_semantics_witness :
    verify_firebase_token
        (fun t => if t == "tok" then some ⟨some "admin@veritas.io"⟩ else none)
        (some "Bearer tok")
      = .ok ⟨some "admin@veritas.io"⟩ :=
  (token_auth_semantics _ _).2.1 "Bearer tok" ⟨some "admin@veritas.io"⟩ rfl
    (by decide) (by decide)

/-- C7 counterexample: with `MOBILE_API_KEY` set to the empty string the
allow-list contains `""`, yet a request presenting exactly that value is
rejected (`if not x_api_key` fires before the membership test), so a
present, allow-listed key still fails — the claimed iff is false. -/
theorem api_key_member_still_rejected :
    (VALID_API_KEYS (some "")).contains "" = true ∧
      isOkE (verify_api_key (VALID_API_KEYS (some "")) (some "")) = false := by
  decide

/-- C7 (amended): API-key verification fails iff the header is absent, its
value is empty (rejected by truthiness even when the allow-list contains the
empty string), or its value is not a member of the allow-list; on success
the validated key value is returned unchanged. -/
theorem api_key_semantics (keys : List String) (x : Option String) :
    (isOkE (verify_api_key keys x) = false ↔
       x = none ∨ ∃ k, x = some k ∧ (k = "" ∨ keys.contains k = false))
  ∧ (∀ k, verify_api_key keys x = .ok k →
       x = some k ∧ keys.contains k = true ∧ k ≠ "") := by
  cases x with
  | none =>
    refine ⟨by simp [verify_api_key, isOkE], ?_⟩
    intro k h
    exact absurd h (by simp [verify_api_key])
  | some k =>
    by_cases hk : k = ""
    · subst hk
      refine ⟨by simp [verify_api_key, isOkE], ?_⟩
      intro k' h
      exact absurd h (by simp [verify_api_key])
    · have hk' : (k == "") = false := by
        cases h : k == "" with
        | false => rfl
        | true => exact absurd (by simpa using h) hk
      cases hm : keys.contains k with
      | true =>
        have hmem : k ∈ keys := by simpa using hm
        have hr : verify_api_key keys (some k) = .ok k := by
          simp [verify_api_key, hk', hmem]
        refine ⟨?_, ?_⟩
        · simp [hr, isOkE, hk, hm, hmem]
        · intro k' h
          rw [hr] at h
          cases h
          exact ⟨rfl, hm, hk⟩
      | false =>
        have hmem : k ∉ keys := by simpa using hm
        have hr : verify_api_key keys (some k) = .error apiKeyErrEnvelope := by
          simp [verify_api_key, hk', hmem]
        refine ⟨?_, ?_⟩
        · simp [hr, isOkE, hk, hm, hmem]
        · intro k' h
          rw [hr] at h
          cases h

/-- Witness for C7: the development-default key against the default
allow-list is accepted and returned unchanged. -/
theorem api_key_semantics_witness :
    some "veritas-mobile-key-2025" = some "veritas-mobile-key-2025" ∧
      (VALID_API_KEYS none).contains "veritas-mobile-key-2025" = true ∧
      "veritas-mobile-key-2025" ≠ "" :=
  (api_key_semantics (VALID_API_KEYS none) (some "veritas-mobile-key-2025")).2
    "veritas-mobile-key-2025" (by decide)

/-- C2 counterexample: supplying `title` as the empty string on an existing
item does not yield status `updated` with the title changed; Python
truthiness treats the empty string as not supplied and the handler answers
`no changes` with the row untouched. -/
theorem update_empty_title_not_updated :
    (update_content ⟨[⟨1, "a", "b", "f", 0⟩], 2, 5⟩ 1 (some "") none).2
        ≠ .ok ⟨"updated", ⟨1, "", "b", "f", 0⟩⟩
  ∧ update_content ⟨[⟨1, "a", "b", "f", 0⟩], 2, 5⟩ 1 (some "") none
      = (⟨[⟨1, "a", "b", "f", 0⟩], 2, 5⟩, .ok ⟨"no changes", ⟨1, "a", "b", "f", 0⟩⟩) := by
  decide

/-- C2 (amended): on an existing item id, a field counts as supplied only
when its value is non-empty (Python truthiness). If neither field is
supplied non-empty the store is unchanged and the response is `no changes`
with the pre-call row; otherwise only the non-empty supplied fields change,
every other field of the row (and every other row) keeps its value, and the
response is `updated` with the updated row. -/
theorem update_partial_semantics (st : Store) (item_id : Nat)
    (title category : Option String) (existing : MediaItem)
    (h : st.rows.find? (fun r => r.id == item_id) = some existing) :
    (truthy title = false → truthy category = false →
       update_content st item_id title category = (st, .ok ⟨"no changes", existing⟩))
  ∧ (truthy title = true ∨ truthy category = true →
       update_content st item_id title category =
         ({ rows := st.rows.map (fun r =>
              if r.id == item_id then
                { r with
                  title := if truthy title then title.getD "" else r.title,
                  category := if truthy category then category.getD "" else r.category }
              else r),
            nextId := st.nextId, now := st.now },
          .ok ⟨"updated",
            { existing with
              title := if truthy title then title.getD "" else existing.title,
              category := if truthy category then category.getD "" else existing.category }⟩)) := by
  constructor
  · intro ht hc
    simp [update_content, h, ht, hc]
  · intro hor
    cases ht : truthy title with
    | true =>
      cases hc : truthy category with
      | true => simp [update_content, h, ht, hc, applyAssignments]
      | false => simp [update_content, h, ht, hc, applyAssignments]
    | false =>
      cases hc : truthy category with
      | true => simp [update_content, h, ht, hc, applyAssignments]
      | false =>
        rw [ht, hc] at hor
        rcases hor with h' | h' <;> cases h'

/-- Witness for C2: updating only the title of a concrete one-row store
changes the title and nothing else, with status `updated`. -/
theorem update_partial_semantics_witness :
    update_content ⟨[⟨1, "a", "b", "f", 0⟩], 2, 5⟩ 1 (some "x") none
      = (⟨[⟨1, "x", "b", "f", 0⟩], 2, 5⟩, .ok ⟨"updated", ⟨1, "x", "b", "f", 0⟩⟩) :=
  ((update_partial_semantics ⟨[⟨1, "a", "b", "f", 0⟩], 2, 5⟩ 1 (some "x") none
      ⟨1, "a", "b", "f", 0⟩ (by decide)).2 (Or.inl (by decide))).trans (by decide)

/-- C3: delete of an absent id fails with 404 and leaves both the store and
the blob store untouched; delete of an existing id succeeds with no
condition on the blob store (a missing backing file is tolerated, the blob
store then being left as is), removes exactly the rows with that id, and
returns a confirmation carrying the deleted item's title and the acting
identity's email (or none). -/
theorem delete_semantics (st : Store) (blob : BlobStore) (item_id : Nat) (u : Claims) :
    (st.rows.find? (fun r => r.id == item_id) = none →
       delete_item st blob item_id u = (st, blob, .error ⟨404, "Item not found"⟩))
  ∧ (∀ item, st.rows.find? (fun r => r.id == item_id) = some item →
       delete_item st blob item_id u =
         ({ rows := st.rows.filter (fun r => r.id != item_id),
            nextId := st.nextId, now := st.now },
          (if blob.files.any (fun f => f.1 == item.file_path) then
             ⟨blob.files.filter (fun f => f.1 != item.file_path)⟩ else blob),
          .ok ⟨"Deleted " ++ item.title, u.email⟩)
     ∧ (blob.files.any (fun f => f.1 == item.file_path) = false →
          (delete_item st blob item_id u).2.1 = blob)) := by
  constructor
  · intro h
    simp [delete_item, h]
  · intro item h
    constructor
    · simp [delete_item, h]
    · intro hb
      simp [delete_item, h, hb]

/-- Witness for C3: deleting the only row of a concrete store whose backing
file is absent from the blob store still succeeds, removes the row, and
reports the title and the identity's email. -/
theorem delete_semantics_witness :
    delete_item ⟨[⟨1, "a", "b", "f", 0⟩], 2, 5⟩ ⟨[]⟩ 1 ⟨some "admin@veritas.io"⟩
      = (⟨[], 2, 5⟩, ⟨[]⟩, .ok ⟨"Deleted a", some "admin@veritas.io"⟩) :=
  (((delete_semantics ⟨[⟨1, "a", "b", "f", 0⟩], 2, 5⟩ ⟨[]⟩ 1 ⟨some "admin@veritas.io"⟩).2
      ⟨1, "a", "b", "f", 0⟩ (by decide)).1).trans (by decide)

/-- Every failure of `verify_api_key` carries the fixed `success:false`
envelope as its 401 detail. -/
theorem verify_api_key_error_shape (keys : List String) (x : Option String)
    (e : MobileEnvelope) (h : verify_api_key keys x = .error e) :
    e = apiKeyErrEnvelope := by
  cases x with
  | none =>
    simp only [verify_api_key] at h
    exact (Except.error.inj h).symm
  | some k =>
    simp only [verify_api_key] at h
    split at h
    · exact (Except.error.inj h).symm
    · split at h
      · exact Except.noConfusion h
      · exact (Except.error.inj h).symm

/-- C8 counterexample: a mobile upload with no API key is answered with HTTP
status 401, not 200 — the authentication failure on the mobile path is not
converted into a success-false 200 response. -/
theorem mobile_missing_key_is_401 :
    (mobile_upload_content (VALID_API_KEYS none) none ⟨[], 1, 0⟩ ⟨[]⟩
        "t" "c" "a.pdf" [1, 2] "RID" .ok).status = 401 := by
  decide

/-- C8 (amended): on the mobile-upload path every failure inside the handler
body (the byte write, and with it the insert) is caught and reported as HTTP
200 with `success:false` and null data; an authentication failure, however,
is raised by the dependency before the body runs and is returned as HTTP 401
— with the same `success:false` envelope as its detail — leaving all state
untouched. -/
theorem mobile_error_envelope (keys : List String) (key : Option String)
    (st : Store) (blob : BlobStore) (title category fname : String)
    (content : List Nat) (rid : String) (w : WriteOutcome) :
    (isOkE (verify_api_key keys key) = false →
       (mobile_upload_content keys key st blob title category fname content rid w).status = 401
     ∧ (mobile_upload_content keys key st blob title category fname content rid w).body
         = apiKeyErrEnvelope
     ∧ (mobile_upload_content keys key st blob title category fname content rid w).st = st
     ∧ (mobile_upload_content keys key st blob title category fname content rid w).blob = blob)
  ∧ (isOkE (verify_api_key keys key) = true →
       (mobile_upload_content keys key st blob title category fname content rid w).status = 200
     ∧ (w = .ok →
         (mobile_upload_content keys key st blob title category fname content rid w).body.success
           = true)
     ∧ (∀ g, w = .crash g →
         (mobile_upload_content keys key st blob title category fname content rid w).body.success
             = false
       ∧ (mobile_upload_content keys key st blob title category fname content rid w).body.data
             = none)) := by
  cases hv : verify_api_key keys key with
  | error e =>
    have he : e = apiKeyErrEnvelope := verify_api_key_error_shape _ _ _ hv
    subst he
    constructor
    · intro _
      simp [mobile_upload_content, hv]
    · intro hok
      simp [isOkE] at hok
  | ok k =>
    constructor
    · intro hf
      simp [isOkE] at hf
    · intro _
      cases w with
      | ok =>
        refine ⟨?_, ?_, ?_⟩
        · simp [mobile_upload_content, hv, uploadCore]
        · intro _
          simp [mobile_upload_content, hv, uploadCore, insertRow]
        · intro g hg
          cases hg
      | crash g0 =>
        refine ⟨?_, ?_, ?_⟩
        · simp [mobile_upload_content, hv, uploadCore]
        · intro hg
          cases hg
        · intro g hg
          cases hg
          constructor
          · simp [mobile_upload_content, hv, uploadCore]
          · simp [mobile_upload_content, hv, uploadCore]

/-- Witness for C8: with a valid key and a crashing byte write, the mobile
endpoint answers 200 with `success:false` and null data. -/
theorem mobile_error_envelope_witness :
    (mobile_upload_content (VALID_API_KEYS none) (some "veritas-mobile-key-2025")
        ⟨[], 1, 0⟩ ⟨[]⟩ "t" "c" "a.pdf" [1, 2] "RID" (.crash [7])).status = 200
  ∧ (mobile_upload_content (VALID_API_KEYS none) (some "veritas-mobile-key-2025")
        ⟨[], 1, 0⟩ ⟨[]⟩ "t" "c" "a.pdf" [1, 2] "RID" (.crash [7])).body.success = false
  ∧ (mobile_upload_content (VALID_API_KEYS none) (some "veritas-mobile-key-2025")
        ⟨[], 1, 0⟩ ⟨[]⟩ "t" "c" "a.pdf" [1, 2] "RID" (.crash [7])).body.data = none := by
  have h := (mobile_error_envelope (VALID_API_KEYS none) (some "veritas-mobile-key-2025")
      ⟨[], 1, 0⟩ ⟨[]⟩ "t" "c" "a.pdf" [1, 2] "RID" (.crash [7])).2 (by decide)
  exact ⟨h.1, (h.2.2 [7] rfl).1, (h.2.2 [7] rfl).2⟩

/-- C1: for both upload variants, under a verified identity, the generated
stored filename is the random identifier followed by the original
filename's extension; on a completed byte write the file content sits in
the blob store under that name and exactly one row is inserted, carrying
the given title and category, the generated filename as `file_path`, and
the store-assigned `id` and `uploaded_at`, and the fully populated created
row is returned; on a failed write the partially written file is garbage in
the blob store and no row is inserted (the store is untouched). -/
theorem upload_semantics (v : String → Option Claims) (auth : Option String)
    (keys : List String) (key : Option String)
    (st : Store) (blob : BlobStore) (title category fname : String)
    (content : List Nat) (rid : String) (w : WriteOutcome)
    (hA : isOkE (verify_firebase_token v auth) = true)
    (hK : isOkE (verify_api_key keys key) = true) :
    unique_filename rid fname = rid ++ (splitext fname).2
  ∧ (w = .ok →
       upload_content v auth st blob title category fname content rid w
         = ({ rows := st.rows
                ++ [⟨st.nextId, title, category, unique_filename rid fname, st.now⟩],
              nextId := st.nextId + 1, now := st.now },
            ⟨(unique_filename rid fname, content) :: blob.files⟩,
            .ok ⟨"success", ⟨st.nextId, title, category, unique_filename rid fname, st.now⟩⟩)
     ∧ mobile_upload_content keys key st blob title category fname content rid w
         = ⟨{ rows := st.rows
                ++ [⟨st.nextId, title, category, unique_filename rid fname, st.now⟩],
              nextId := st.nextId + 1, now := st.now },
            ⟨(unique_filename rid fname, content) :: blob.files⟩, 200,
            ⟨true, "Upload successful",
             some ⟨st.nextId, title, category, unique_filename rid fname, st.now⟩⟩⟩)
  ∧ (∀ g, w = .crash g →
       upload_content v auth st blob title category fname content rid w
         = (st, ⟨(unique_filename rid fname, g) :: blob.files⟩, .error ⟨500, "write failed"⟩)
     ∧ mobile_upload_content keys key st blob title category fname content rid w
         = ⟨st, ⟨(unique_filename rid fname, g) :: blob.files⟩, 200,
            ⟨false, "Upload failed: write failed", none⟩⟩) := by
  cases hca : verify_firebase_token v auth with
  | error e =>
    rw [hca] at hA
    simp [isOkE] at hA
  | ok c =>
    cases hck : verify_api_key keys key with
    | error e =>
      rw [hck] at hK
      simp [isOkE] at hK
    | ok k =>
      refine ⟨rfl, ?_, ?_⟩
      · intro hw
        subst hw
        constructor
        · simp [upload_content, hca, uploadCore, insertRow]
        · simp [mobile_upload_content, hck, uploadCore, insertRow]
      · intro g hw
        subst hw
        constructor
        · simp [upload_content, hca, uploadCore]
        · simp [mobile_upload_content, hck, uploadCore]

/-- Witness for C1: a concrete successful admin upload of `a.pdf` stores the
bytes under `RID.pdf` and inserts exactly the one expected row. -/
theorem upload_semantics_witness :
    upload_content (fun t => if t == "tok" then some ⟨some "a@b"⟩ else none)
        (some "Bearer tok") ⟨[], 1, 0⟩ ⟨[]⟩ "Doc1" "legal" "a.pdf" [1, 2, 3] "RID" .ok
      = (⟨[⟨1, "Doc1", "legal", "RID.pdf", 0⟩], 2, 0⟩, ⟨[("RID.pdf", [1, 2, 3])]⟩,
         .ok ⟨"success", ⟨1, "Doc1", "legal", "RID.pdf", 0⟩⟩) := by
  have h := ((upload_semantics (fun t => if t == "tok" then some ⟨some "a@b"⟩ else none)
      (some "Bearer tok") (VALID_API_KEYS none) (some "veritas-mobile-key-2025")
      ⟨[], 1, 0⟩ ⟨[]⟩ "Doc1" "legal" "a.pdf" [1, 2, 3] "RID" .ok
      (by decide) (by decide)).2.1 rfl).1
  exact h.trans (by decide)

/-- The two halves of `splitextL` concatenate back to the input. -/
theorem splitextL_append (p : List Char) : (splitextL p).1 ++ (splitextL p).2 = p := by
  unfold splitextL
  split
  · exact List.take_append_drop _ p
  · simp

/-- The root and the extension returned by `splitext` concatenate back to
the original path. -/
theorem splitext_data (p : String) :
    (splitext p).1.data ++ (splitext p).2.data = p.data :=
  splitextL_append p.data

/-- Strings with equal character data are equal. -/
theorem string_eq_of_data_eq {a b : String} (h : a.data = b.data) : a = b := by
  cases a
  cases b
  cases h
  rfl

/-- C9 counterexample: a caller who names the file `<id>.pdf` for exactly
the identifier the server draws for this upload gets a stored `file_path`
equal to the original filename, so the unconditional inequality is false. -/
theorem stored_name_equals_original_on_collision :
    unique_filename "123e4567-e89b-42d3-a456-426614174000"
        "123e4567-e89b-42d3-a456-426614174000.pdf"
      = "123e4567-e89b-42d3-a456-426614174000.pdf" := by
  decide

/-- C9 (amended): the stored `file_path` differs from the caller-supplied
original filename whenever the filename's root (the part before the
extension) is not exactly the string form of the generated random
identifier; equality requires that the supplied root collide with the
freshly drawn identifier. -/
theorem generated_name_ne_original (rid fname : String)
    (h : (splitext fname).1 ≠ rid) : unique_filename rid fname ≠ fname := by
  intro he
  apply h
  have hd : rid.data ++ (splitext fname).2.data = fname.data := by
    have := congrArg String.data he
    rwa [unique_filename, String.data_append] at this
  have h2 : (splitext fname).1.data ++ (splitext fname).2.data = fname.data :=
    splitext_data fname
  exact string_eq_of_data_eq (List.append_cancel_right (h2.trans hd.symm))

/-- Witness for C9: an ordinary original filename differs from the
generated one. -/
theorem generated_name_ne_original_witness :
    unique_filename "RID" "a.pdf" ≠ "a.pdf" :=
  generated_name_ne_original "RID" "a.pdf" (by decide)

/-! ### `ILIKE '%q%'` is substring containment for wildcard-free queries -/

/-- A trailing `%` scan over the empty pattern accepts every subject. -/
theorem likeTail_empty_pat (s : List Char) : likeTail (likeMatch []) s = true := by
  induction s with
  | nil => rfl
  | cons c t ih => simp [likeTail, ih]

/-- Unfolding: a pattern headed by `%` scans every suffix of the subject
with the rest of the pattern. -/
theorem likeMatch_pct_cons (ps s : List Char) :
    likeMatch ('%' :: ps) s = likeTail (likeMatch ps) s := by
  rw [likeMatch.eq_def]
  simp

/-- The pattern `%` alone matches every subject. -/
theorem likeMatch_pct_all (s : List Char) : likeMatch ['%'] s = true := by
  rw [likeMatch_pct_cons]
  exact likeTail_empty_pat s

/-- `startsL` against the empty subject succeeds only for the empty
pattern. -/
theorem startsL_nil (q : List Char) : startsL q [] = q.isEmpty := by
  cases q <;> rfl

/-- The empty run occurs in every subject. -/
theorem subL_nil (l : List Char) : subL [] l = true := by
  cases l <;> rfl

/-- Sanity: `startsL p s` is exactly "`s` decomposes as `p ++ r`". -/
theorem startsL_iff (p : List Char) :
    ∀ s, startsL p s = true ↔ ∃ r, s = p ++ r := by
  induction p with
  | nil =>
    intro s
    simp [startsL]
  | cons a p2 ih =>
    intro s
    cases s with
    | nil => simp [startsL]
    | cons d t =>
      simp only [startsL, Bool.and_eq_true, beq_iff_eq, ih]
      constructor
      · rintro ⟨rfl, r, rfl⟩
        exact ⟨r, rfl⟩
      · rintro ⟨r, h⟩
        cases h
        exact ⟨rfl, r, rfl⟩

/-- Sanity: `subL q s` is exactly "`s` decomposes as `u ++ q ++ v`", i.e.
`q` is a substring of `s`. -/
theorem subL_iff (q : List Char) :
    ∀ s, subL q s = true ↔ ∃ u v, s = u ++ q ++ v := by
  intro s
  induction s with
  | nil =>
    simp only [subL, List.isEmpty_iff]
    constructor
    · intro h
      exact ⟨[], [], by simp [h]⟩
    · rintro ⟨u, v, h⟩
      rcases List.append_eq_nil.mp (List.append_eq_nil.mp h.symm).1 with ⟨-, h2⟩
      exact h2
  | cons c t ih =>
    simp only [subL, Bool.or_eq_true, startsL_iff, ih]
    constructor
    · rintro (⟨r, hr⟩ | ⟨u, v, rfl⟩)
      · exact ⟨[], r, by simp [hr]⟩
      · exact ⟨c :: u, v, by simp⟩
    · rintro ⟨u, v, h⟩
      cases u with
      | nil =>
        left
        exact ⟨v, by simpa using h⟩
      | cons x u2 =>
        right
        rcases List.cons_eq_cons.mp h with ⟨rfl, h2⟩
        exact ⟨u2, v, h2⟩

/-- For a pattern free of `%`, `_` and `\`, matching `q ++ ['%']` is exactly
"the subject starts with `q`". -/
theorem likeMatch_lit_pct (q : List Char)
    (hq : ∀ c ∈ q, c ≠ '%' ∧ c ≠ '_' ∧ c ≠ '\\') :
    ∀ s, likeMatch (q ++ ['%']) s = startsL q s := by
  induction q with
  | nil =>
    intro s
    simp [likeMatch_pct_all, startsL]
  | cons a q' ih =>
    intro s
    have ha := hq a (List.mem_cons_self a q')
    have hq' : ∀ c ∈ q', c ≠ '%' ∧ c ≠ '_' ∧ c ≠ '\\' :=
      fun c hc => hq c (List.mem_cons_of_mem a hc)
    cases s with
    | nil =>
      rw [likeMatch.eq_def]
      simp [startsL, ha.1, ha.2.1, ha.2.2]
    | cons d t =>
      rw [likeMatch.eq_def]
      simp [startsL, ha.1, ha.2.1, ha.2.2, ih hq' t]

/-- For a query free of `%`, `_` and `\`, matching `'%' :: q ++ ['%']` is
exactly "`q` occurs inside the subject". -/
theorem likeMatch_pct_sandwich (q : List Char)
    (hq : ∀ c ∈ q, c ≠ '%' ∧ c ≠ '_' ∧ c ≠ '\\') :
    ∀ s, likeMatch ('%' :: (q ++ ['%'])) s = subL q s := by
  intro s
  induction s with
  | nil =>
    rw [likeMatch_pct_cons]
    simp only [likeTail]
    rw [likeMatch_lit_pct q hq, startsL_nil]
    rfl
  | cons c t ih =>
    rw [likeMatch_pct_cons] at ih ⊢
    simp only [likeTail, subL]
    rw [likeMatch_lit_pct q hq, ih]

/-- String-level shape of the pattern the handler builds. -/
theorem pct_wrap_data (q : String) : ("%" ++ q ++ "%").data = '%' :: q.data ++ ['%'] := by
  simp [String.data_append]

/-- Lowering commutes with the `%` wrapping. -/
theorem lowerL_pct_wrap (l : List Char) :
    lowerL ('%' :: l ++ ['%']) = '%' :: lowerL l ++ ['%'] := by
  simp [lowerL, lowerChar]

/-- The lowering map fixes every character it can send to one of the three
`LIKE` metacharacters: only `A`–`Z` are moved, and they land in `a`–`z`. -/
theorem lowerChar_wild_fixed {a b : Char} (hb : b = '%' ∨ b = '_' ∨ b = '\\')
    (h : lowerChar a = b) : a = b := by
  by_cases hc : 65 ≤ a.toNat ∧ a.toNat ≤ 90
  · exfalso
    rw [lowerChar, if_pos hc] at h
    obtain ⟨h1, h2⟩ := hc
    generalize hn : a.toNat = n at h1 h2 h
    interval_cases n <;> rcases hb with rfl | rfl | rfl <;> exact absurd h (by decide)
  · rwa [lowerChar, if_neg hc] at h

/-- Lowering preserves freedom from the `LIKE` metacharacters. -/
theorem lowerL_wild_free (q : List Char)
    (hq : ∀ c ∈ q, c ≠ '%' ∧ c ≠ '_' ∧ c ≠ '\\') :
    ∀ c ∈ lowerL q, c ≠ '%' ∧ c ≠ '_' ∧ c ≠ '\\' := by
  intro c hc
  simp only [lowerL, List.mem_map] at hc
  obtain ⟨a, ha, rfl⟩ := hc
  have h3 := hq a ha
  refine ⟨?_, ?_, ?_⟩
  · intro h
    exact h3.1 (lowerChar_wild_fixed (Or.inl rfl) h)
  · intro h
    exact h3.2.1 (lowerChar_wild_fixed (Or.inr (Or.inl rfl)) h)
  · intro h
    exact h3.2.2 (lowerChar_wild_fixed (Or.inr (Or.inr rfl)) h)

/-- For a query free of `%`, `_` and `\`, the handler's
`title ILIKE '%q%'` test coincides with case-insensitive substring
containment of `q` in the title. -/
theorem ilike_substring (q title : String)
    (hq : ∀ c ∈ q.data, c ≠ '%' ∧ c ≠ '_' ∧ c ≠ '\\') :
    ilike ("%" ++ q ++ "%") title = containsCI q title := by
  unfold ilike containsCI
  rw [pct_wrap_data, lowerL_pct_wrap]
  exact likeMatch_pct_sandwich (lowerL q.data) (lowerL_wild_free q.data hq)
    (lowerL title.data)

/-- C5 counterexample: the query `a_c` is not contained in the title `abc`,
yet the item is returned — `_` is an `ILIKE` metacharacter, so the filter is
not substring containment for every supplied `q`. -/
theorem list_wildcard_not_substring :
    list_content [⟨3, "abc", "c", "h", 2⟩] (some "a_c") none "B/"
        = [⟨3, "abc", "c", "B/h", 2⟩]
  ∧ containsCI "a_c" "abc" = false := by
  decide

/-- C5 (amended): for every supplied query `q` containing none of the SQL
`LIKE` metacharacters `%`, `_`, `\`, list returns exactly the rows whose
title contains `q` as a case-insensitive substring, conjoined (AND) with the
exact category predicate when a non-sentinel category is supplied — in
particular an empty result is an empty sequence, not an error. -/
theorem list_returns_substring_matches (rows : List MediaItem) (q : String)
    (category : Option String) (baseUrl : String)
    (hq : ∀ c ∈ q.data, c ≠ '%' ∧ c ≠ '_' ∧ c ≠ '\\') :
    list_content rows (some q) category baseUrl
      = (rows.filter (specMatch q category)).map (projectItem baseUrl) := by
  unfold list_content
  congr 1
  apply List.filter_congr
  intro r _
  simp only [rowMatches, specMatch]
  by_cases hq0 : q = ""
  · subst hq0
    have hce : containsCI "" r.title = true := subL_nil (lowerL r.title.data)
    simp [hce, Bool.and_comm]
  · have hqb : (q != "") = true := by simp [hq0]
    simp only [hqb, if_true]
    rw [ilike_substring q r.title hq]
    exact Bool.and_comm _ _

/-- Witness for C5: the uploaded title `Report` is found by the
lower-case query `report`. -/
theorem list_returns_substring_matches_witness :
    list_content [⟨2, "Report", "legal", "g", 1⟩] (some "report") none "B/"
      = (([⟨2, "Report", "legal", "g", 1⟩] : List MediaItem).filter
          (specMatch "report" none)).map (projectItem "B/") :=
  list_returns_substring_matches [⟨2, "Report", "legal", "g", 1⟩] "report" none "B/"
    (by decide)

end Veritas
